import Mathlib

/-!
Verification of `src/matchable.ts` (the `fn` repository): a uniform
pattern-matching facility over runtime values.  JavaScript values are
embedded as the inductive type `Value`; records are association lists of
string keys (JS own enumerable properties, insertion order, unique keys).
Handler maps are association lists from string keys to Lean functions,
mirroring JS objects whose property keys are always strings (numeric and
boolean handler keys are stored in their string form, exactly as the JS
runtime stores them).
-/

set_option autoImplicit false

namespace Matchable

/-- Embedding of the JavaScript values the library manipulates.
Numbers are modelled as integers (every number appearing in the code,
its tests and the claims is a small integer; floating-point behaviour is
never exercised). -/
inductive Value where
  | vNull
  | vUndefined
  | vBool (b : Bool)
  | vNum (n : Int)
  | vStr (s : String)
  | vArr (elems : List Value)
  | vObj (fields : List (String × Value))

/-- A JS record: own enumerable properties in insertion order. -/
abbrev Obj := List (String × Value)

/-- A JS handler map: property key (string) to handler function. -/
abbrev Handlers (R : Type) := List (String × (Value → R))

/-- `v == null` (JS loose equality with null): true exactly for `null`
and `undefined`. -/
def isNil : Value → Bool
  | .vNull => true
  | .vUndefined => true
  | _ => false

/-- `["string", "number", "boolean"].includes(typeof value)`. -/
def isScalar : Value → Bool
  | .vBool _ => true
  | .vNum _ => true
  | .vStr _ => true
  | _ => false

/-- First property in an association list: models JS property lookup on
an object (keys are unique in a JS object, so first match is the match). -/
def getProp? {α : Type} : List (String × α) → String → Option α
  | [], _ => none
  | (k, a) :: rest, key => if k == key then some a else getProp? rest key

mutual

/-- JS `String(v)` / ToPropertyKey coercion: property keys are strings, so
`k in h` and `h[k]` convert `k` with this function. -/
def jsToString : Value → String
  | .vNull => "null"
  | .vUndefined => "undefined"
  | .vBool b => cond b "true" "false"
  | .vNum n => toString n
  | .vStr s => s
  | .vObj _ => "[object Object]"
  | .vArr xs => jsJoinArr xs
termination_by structural v => v

/-- `Array.prototype.toString` = `join(",")`, where `null`/`undefined`
elements render as the empty string. -/
def jsJoinArr : List Value → String
  | [] => ""
  | x :: rest =>
    let s := match x with
      | .vNull => ""
      | .vUndefined => ""
      | y => jsToString y
    match rest with
    | [] => s
    | _ :: _ => s ++ "," ++ jsJoinArr rest
termination_by structural xs => xs

end

/-- Own enumerable properties of a value, as JS `Object.keys`/spread see
them.  For arrays these are the index properties.  (Integer-like key
reordering of `Object.keys` is not modelled: every record the library
routes through `Object.keys` is inspected only for its key count and
single key, which are order-independent.) -/
def objFields : Value → Obj
  | .vObj fields => fields
  | .vArr xs => xs.enum.map (fun p => (toString p.1, p.2))
  | _ => []

/-- JS member access `v[k]`, yielding `undefined` for a missing property.
The array `length` property is own but non-enumerable, hence the special
case.  (Member access on primitives is never performed by the library.) -/
def objGet (v : Value) (k : String) : Value :=
  match v with
  | .vArr xs => if k == "length" then .vNum (xs.length : Int) else ((getProp? (objFields v) k).getD .vUndefined)
  | _ => (getProp? (objFields v) k).getD .vUndefined

/-- `/^[A-Z]/.test(key)`: first character is an uppercase ASCII letter. -/
def startsUpperA (s : String) : Bool :=
  match s.data with
  | [] => false
  | c :: _ => 65 ≤ c.toNat && c.toNat ≤ 90

/-- Modelled from the spec: the deep-equality collaborator
(`fast-deep-equal`, external to this repository) is used solely as
`isEqual(value, [])`, detecting a structurally empty ordered sequence;
equality with the empty array holds exactly for an empty array. -/
def isEqualEmptyArr : Value → Bool
  | .vArr [] => true
  | _ => false

/-- Modelled from the spec: constant-producer combinator `K` from the
external combinator module (`comb.js`, not part of `src/`): returns a
function that ignores its argument and yields the stored value. -/
def K {α β : Type} (x : α) : β → α := fun _ => x

/-- Modelled from the spec: pass-through (identity) combinator `I` from
the external combinator module. -/
def I {α : Type} (x : α) : α := x

/-- Modelled from the spec: zero-argument-invocation combinator `call0`
from the external combinator module: invokes a producer. -/
def call0 {α : Type} (f : Unit → α) : α := f ()

/-- JS `===` on the primitive values used as tags (discriminant tag lists
are typed `string | number | boolean`; object identity is never compared
by the library). -/
def jsStrictEq : Value → Value → Bool
  | .vStr a, .vStr b => a == b
  | .vNum a, .vNum b => a == b
  | .vBool a, .vBool b => a == b
  | .vNull, .vNull => true
  | .vUndefined, .vUndefined => true
  | _, _ => false

/- =============================
 * Empty matcher (null/undefined)
 * ============================= -/

/-- `emptyMatchable.match = K(null)`: yields null, ignoring the handler
map entirely. `none` models the JS `null` result. -/
def emptyMatch {R : Type} : Handlers R → Option R := K none

/-- `emptyMatchable.value_or = I`: returns the fallback unchanged. -/
def emptyValueOr (fallback : Value) : Value := I fallback

/-- `emptyMatchable.value_or_else = call0`: invokes the producer. -/
def emptyValueOrElse (producer : Unit → Value) : Value := call0 producer

/- =============================
 * Enum-like (primitive) matcher
 * ============================= -/

/-- The key computation in `matchableEnum.match`:
`typeof value === "boolean" ? String(value) : value`. -/
def enumKey (v : Value) : Value :=
  match v with
  | .vBool b => .vStr (cond b "true" "false")
  | _ => v

/-- `matchableEnum.match`: look the (stringified) key up in the handler
map, falling back to `_`; with neither present the JS call
`handler(value)` on `undefined` throws a `TypeError`, modelled as
`Except.error`. -/
def enumMatch {R : Type} (value : Value) (h : Handlers R) : Except String R :=
  let k := jsToString (enumKey value)
  match getProp? h k with
  | some f => .ok (f value)
  | none =>
    match getProp? h "_" with
    | some f => .ok (f value)
    | none => .error "TypeError: handler is not a function"

/- =============================
 * Rust-enum-like (single-key object) matcher
 * ============================= -/

/-- `Object.keys(src)[0]` as a property key: `undefined` stringifies to
`"undefined"` when the record has no key at all. -/
def unionTagStr (src : Obj) : String :=
  match src with
  | [] => "undefined"
  | p :: _ => p.1

/-- The captured `payload = src[tag]` of `matchableUnion`. -/
def unionPayload (src : Obj) : Value := objGet (.vObj src) (unionTagStr src)

/-- `matchableUnion.match`: `(h[tag] ?? h._)(payload)` — both the
tag-specific and the default branch receive the payload.  With neither
handler present the JS call throws a `TypeError`. -/
def unionMatch {R : Type} (src : Obj) (h : Handlers R) : Except String R :=
  let tagS := unionTagStr src
  let payload := unionPayload src
  match getProp? h tagS with
  | some f => .ok (f payload)
  | none =>
    match getProp? h "_" with
    | some f => .ok (f payload)
    | none => .error "TypeError: fn is not a function"

/-- `matchableUnion.into`: invoke with the payload unless it is nullish
or deep-equal to the empty array. -/
def unionInto {R : Type} (src : Obj) (fn : Value → R) : Option R :=
  let payload := unionPayload src
  if !isNil payload && !isEqualEmptyArr payload then some (fn payload) else none

/-- `matchableUnion.catch`: as `into`, additionally requiring the tag to
be a member of the supplied tag list. -/
def unionCatch {R : Type} (src : Obj) (tags : List String) (fn : Value → R) : Option R :=
  let payload := unionPayload src
  let inTags := match src with
    | [] => false
    | p :: _ => tags.contains p.1
  if inTags && !isNil payload && !isEqualEmptyArr payload then some (fn payload) else none

/- =========================================================
 * Discriminated-object union matcher (explicit key required)
 * ========================================================= -/

/-- `_disc_key(v)`: booleans are stringified; every other tag passes
through (and is stringified later, at the property-key boundary). -/
def disc_key (v : Value) : Value :=
  match v with
  | .vBool b => .vStr (cond b "true" "false")
  | _ => v

/-- `_disc_payload(obj, key)`: a fresh record equal to a shallow copy of
`obj` with the `key` property deleted. -/
def disc_payload (obj : Value) (key : String) : Value :=
  .vObj ((objFields obj).filter (fun p => p.1 != key))

/-- `_disc_payload` with the record state made explicit: the function
copies `obj` (spread), deletes `key` on the copy only, and returns the
copy; the second component is the state of the original record after the
call — unchanged, because the delete targets the copy. -/
def disc_payload_st (obj : Value) (key : String) : Value × Value :=
  (disc_payload obj key, obj)

/-- `matchableDisc.match`: a nullish tag is a miss; otherwise the
normalized tag selects a handler, which receives the bare payload
(discriminant removed); on a miss the default `_` handler receives the
full original record; with neither handler the call throws the
diagnostic error. -/
def discMatch {R : Type} (value : Value) (key : String) (h : Handlers R) : Except String R :=
  let t := objGet value key
  if isNil t then
    match getProp? h "_" with
    | some f => .ok (f value)
    | none => .error ("match(): no handler for key=" ++ key ++ " tag=null")
  else
    let rk := jsToString (disc_key t)
    match getProp? h rk with
    | some f => .ok (f (disc_payload value key))
    | none =>
      match getProp? h "_" with
      | some f => .ok (f value)
      | none => .error ("match(): no handler for key=" ++ key ++ " tag=" ++ rk)

/-- `matchableDisc.into`: null when the tag is nullish, otherwise the
handler applied to the bare payload. -/
def discInto {R : Type} (value : Value) (key : String) (fn : Value → R) : Option R :=
  if isNil (objGet value key) then none
  else some (fn (disc_payload value key))

/-- `matchableDisc.catch`: as `into`, additionally requiring the tag to
be a member (JS `includes`, i.e. `===`) of the supplied tag list. -/
def discCatch {R : Type} (value : Value) (key : String) (tags : List Value) (fn : Value → R) : Option R :=
  if isNil (objGet value key) then none
  else if !(tags.any (fun t => jsStrictEq t (objGet value key))) then none
  else some (fn (disc_payload value key))

/- =============================
 * Plain object matcher
 * ============================= -/

/-- One step of the `for (const k of keys) picked[k] = value[k]` loop:
JS property assignment updates an existing property in place or appends
a new one. -/
def setProp (o : Obj) (k : String) (v : Value) : Obj :=
  if o.any (fun p => p.1 == k) then o.map (fun p => if p.1 == k then (k, v) else p)
  else o ++ [(k, v)]

/-- The `picked` sub-record built by `matchableObj.catch`. -/
def pickProps (value : Value) (keys : List String) : Obj :=
  keys.foldl (fun acc k => setProp acc k (objGet value k)) []

/-- `matchableObj.catch`: null when any named key's value is nullish,
otherwise the handler applied to the picked sub-record. -/
def objCatch {R : Type} (value : Value) (keys : List String) (fn : Value → R) : Option R :=
  if keys.any (fun k => isNil (objGet value k)) then none
  else some (fn (.vObj (pickProps value keys)))

/-- `matchableObj.into`: always invokes the handler with the full record. -/
def objInto {R : Type} (value : Value) (fn : Value → R) : R := fn value

/- =============================
 * Classification (`me`)
 * ============================= -/

/-- The matcher shapes produced by the library; the constructor records
the wrapped data exactly as the corresponding factory captures it. -/
inductive Matcher where
  | empty
  | enum (value : Value)
  | union (src : Obj)
  | disc (value : Value) (key : String)
  | obj (value : Value)

/-- `Object.keys` of the wrapped value. -/
def jsKeys (v : Value) : List String := (objFields v).map (fun p => p.1)

/-- The public constructor `me`: nullish input yields the shared empty
matcher; scalars the enum matcher; a single-key record whose key starts
with an uppercase letter the union matcher; every other object the plain
object matcher. -/
def me (value : Value) : Matcher :=
  if isNil value then .empty
  else if isScalar value then .enum value
  else
    match jsKeys value with
    | [k] => if startsUpperA k then .union (objFields value) else .obj value
    | _ => .obj value

/-- `matchableObj.as(key)` / `matchableObj.match(key, handlers)`: the
discriminated view over the same record. -/
def objAs (value : Value) (key : String) : Matcher := .disc value key

/- =============================
 * Discriminated ops with explicit record state (frame reasoning)
 * ============================= -/

/-- One discriminated-matcher operation together with its arguments. -/
inductive DiscOp (R : Type) where
  | opMatch (h : Handlers R)
  | opInto (fn : Value → R)
  | opCatch (tags : List Value) (fn : Value → R)

/-- Observable outcome of a discriminated-matcher operation: a handler
result, the JS `null` of a skipped dispatcher, or a raised error. -/
inductive DiscRes (R : Type) where
  | ok (r : R)
  | nullRes
  | err (msg : String)

/-- Run one operation against the current state of the record.  The only
write any of these operations performs is the delete inside
`_disc_payload`, so the record state after the call is the second
component of `disc_payload_st` — the untouched original. -/
def discStep {R : Type} (key : String) (st : Value) : DiscOp R → DiscRes R × Value
  | .opMatch h =>
    (match discMatch st key h with
      | .ok r => .ok r
      | .error e => .err e,
     (disc_payload_st st key).2)
  | .opInto fn =>
    (match discInto st key fn with
      | some r => .ok r
      | none => .nullRes,
     (disc_payload_st st key).2)
  | .opCatch tags fn =>
    (match discCatch st key tags fn with
      | some r => .ok r
      | none => .nullRes,
     (disc_payload_st st key).2)

/-- Run a sequence of operations, threading the record state. -/
def discRun {R : Type} (key : String) : List (DiscOp R) → Value → List (DiscRes R) × Value
  | [], st => ([], st)
  | op :: rest, st =>
    let p := discStep key st op
    let q := discRun key rest p.2
    (p.1 :: q.1, q.2)

/- =============================
 * Theorems
 * ============================= -/

/-- Claim C1: the single entry operation `me` classifies every input into
exactly one shape: nullish input yields the empty matcher; a scalar the
enum matcher holding that value; a record with exactly one field whose
name starts with an uppercase ASCII letter the variant (union) matcher;
any other record the plain object matcher — and classification never
yields a discriminated matcher. -/
theorem me_classifies (v : Value) :
    (isNil v = true → me v = .empty) ∧
    (isScalar v = true → me v = .enum v) ∧
    (∀ k pv, v = .vObj [(k, pv)] → startsUpperA k = true → me v = .union [(k, pv)]) ∧
    (∀ fields, v = .vObj fields →
      (∀ k pv, fields = [(k, pv)] → startsUpperA k = false) → me v = .obj v) ∧
    (∀ w key, ¬ me v = .disc w key) := by
  refine ⟨?_, ?_, ?_, ?_, ?_⟩
  · intro h
    cases v <;> simp_all [isNil, me]
  · intro h
    cases v <;> simp_all [isNil, isScalar, me]
  · rintro k pv rfl hup
    simp [me, isNil, isScalar, jsKeys, objFields, hup]
  · rintro fields rfl hno
    match fields with
    | [] => rfl
    | [(k, pv)] =>
      have hk := hno k pv rfl
      simp [me, isNil, isScalar, jsKeys, objFields, hk]
    | (k1, v1) :: (k2, v2) :: rest => rfl
  · intro w key h
    unfold me at h
    split at h
    · cases h
    · split at h
      · cases h
      · split at h
        · split at h <;> cases h
        · cases h

/-- Claim C1 witness: a concrete single-field uppercase record is
classified as a union matcher. -/
theorem me_classifies_witness :
    me (.vObj [("A", .vNum 1)]) = .union [("A", .vNum 1)] :=
  (me_classifies (.vObj [("A", .vNum 1)])).2.2.1 "A" (.vNum 1) rfl rfl

/-- Claim C2 counterexample: on the empty matcher,
`match(handlers)` with a default handler returning `"X"` does NOT return
`"X"` — the code is `match: K(null)`, which returns null without
invoking any handler (the repository's own test expects null here). -/
theorem empty_match_claim_cex :
    ¬ (emptyMatch [("_", fun _ => Value.vStr "X")] = some (Value.vStr "X")) := by
  simp [emptyMatch, K]

/-- Claim C2 (amended): classifying a nullish value yields the empty
matcher, whose `match(handlers)` returns null without invoking any
handler — for every handler map, default handler present or not. -/
theorem empty_match_returns_null {R : Type} (h : Handlers R) :
    me .vNull = .empty ∧ me .vUndefined = .empty ∧ emptyMatch h = none :=
  ⟨rfl, rfl, rfl⟩

/-- Claim C3: `DiscriminatedMatcher.match` normalizes the tag with
`_disc_key` (booleans become the strings true/false); a nullish tag is a
miss; a present normalized key selects its handler, which receives the
record minus the discriminant field; on a miss a default handler receives
the full original record. -/
theorem disc_match_dispatch {R : Type} (value : Value) (key : String) (h : Handlers R) :
    (disc_key (.vBool true) = .vStr "true" ∧ disc_key (.vBool false) = .vStr "false") ∧
    (∀ f, isNil (objGet value key) = false →
      getProp? h (jsToString (disc_key (objGet value key))) = some f →
      discMatch value key h = .ok (f (disc_payload value key))) ∧
    (∀ g, getProp? h "_" = some g →
      (isNil (objGet value key) = true ∨
        getProp? h (jsToString (disc_key (objGet value key))) = none) →
      discMatch value key h = .ok (g value)) := by
  refine ⟨⟨rfl, rfl⟩, ?_, ?_⟩
  · intro f hnil hget
    simp [discMatch, hnil, hget]
  · intro g hg hmiss
    rcases hmiss with hnil | hmiss
    · simp [discMatch, hnil, hg]
    · cases hn : isNil (objGet value key) with
      | true => simp [discMatch, hn, hg]
      | false => simp [discMatch, hn, hmiss, hg]

/-- Claim C3 witness: matching a record with tag `"a"` against a handler
map carrying a handler for `a` hands that handler the record minus the
discriminant field. -/
theorem disc_match_dispatch_witness :
    discMatch (.vObj [("kind", .vStr "a"), ("x", .vNum 1)]) "kind"
      [("a", fun p => p), ("_", fun p => p)] = .ok (.vObj [("x", .vNum 1)]) :=
  (disc_match_dispatch (.vObj [("kind", .vStr "a"), ("x", .vNum 1)]) "kind"
      [("a", fun p => p), ("_", fun p => p)]).2.1 (fun p => p) rfl rfl

/-- Claim C4: `DiscriminatedMatcher.match` with neither a handler for the
normalized tag nor a default handler yields (synchronously, as the
call's outcome) an error naming the discriminant field and the tag. -/
theorem disc_match_no_handler_error {R : Type} (value : Value) (key : String) (h : Handlers R)
    (hnil : isNil (objGet value key) = false)
    (hget : getProp? h (jsToString (disc_key (objGet value key))) = none)
    (hdef : getProp? h "_" = none) :
    discMatch value key h =
      .error ("match(): no handler for key=" ++ key ++ " tag="
        ++ jsToString (disc_key (objGet value key))) := by
  simp [discMatch, hnil, hget, hdef]

/-- Claim C4 witness: matching against an empty handler map raises the
diagnostic error naming key and tag (exactly the message the
repository's test expects). -/
theorem disc_match_no_handler_error_witness :
    discMatch (.vObj [("kind", .vStr "a"), ("x", .vNum 1)]) "kind" ([] : Handlers Value)
      = .error "match(): no handler for key=kind tag=a" :=
  disc_match_no_handler_error (.vObj [("kind", .vStr "a"), ("x", .vNum 1)]) "kind"
      ([] : Handlers Value) rfl rfl rfl

/-- Claim C5: on a single-field uppercase-tagged record,
`VariantMatcher.match` selects the handler under the sole field name,
falling back to the default handler; both receive the payload stored
under the tag field — while (asymmetry, same handler map) the
discriminated matcher's default branch receives the full record. -/
theorem union_match_payload {R : Type} (k : String) (v : Value) (h : Handlers R)
    (hup : startsUpperA k = true) :
    me (.vObj [(k, v)]) = .union [(k, v)] ∧
    (∀ f, getProp? h k = some f → unionMatch [(k, v)] h = .ok (f v)) ∧
    (∀ g, getProp? h k = none → getProp? h "_" = some g →
      unionMatch [(k, v)] h = .ok (g v)) ∧
    (∀ g dvalue dkey, getProp? h "_" = some g →
      isNil (objGet dvalue dkey) = true →
      discMatch dvalue dkey h = .ok (g dvalue)) := by
  refine ⟨(me_classifies (.vObj [(k, v)])).2.2.1 k v rfl hup, ?_, ?_, ?_⟩
  · intro f hf
    have hpay : unionPayload [(k, v)] = v := by
      simp [unionPayload, unionTagStr, objGet, objFields, getProp?]
    simp [unionMatch, unionTagStr, hpay, hf]
  · intro g hk hg
    have hpay : unionPayload [(k, v)] = v := by
      simp [unionPayload, unionTagStr, objGet, objFields, getProp?]
    simp [unionMatch, unionTagStr, hpay, hk, hg]
  · intro g dvalue dkey hg hnil
    simp [discMatch, hnil, hg]

/-- Claim C5 witness: `me` routes a Circle record to the union matcher
and its match hands the payload to the tag handler. -/
theorem union_match_payload_witness :
    unionMatch [("Circle", .vObj [("r", .vNum 2)])]
      [("Circle", fun p => objGet p "r"), ("_", fun _ => Value.vNum 0)] = .ok (.vNum 2) :=
  (union_match_payload "Circle" (.vObj [("r", .vNum 2)])
      [("Circle", fun p => objGet p "r"), ("_", fun _ => Value.vNum 0)] rfl).2.1
    (fun p => objGet p "r") rfl

/-- Claim C7: `EnumMatcher.match` keys on the scalar itself with booleans
stringified; a present key selects its handler, a missing key falls to
the default; the invoked handler always receives the original value.
The two literal examples of the claim are included. -/
theorem enum_match_dispatch :
    (∀ (R : Type) (v : Value) (h : Handlers R), isScalar v = true →
      (enumKey (.vBool true) = .vStr "true" ∧ enumKey (.vBool false) = .vStr "false" ∧
        (∀ n : Int, enumKey (.vNum n) = .vNum n) ∧ (∀ s, enumKey (.vStr s) = .vStr s)) ∧
      (∀ f, getProp? h (jsToString (enumKey v)) = some f → enumMatch v h = .ok (f v)) ∧
      (∀ g, getProp? h (jsToString (enumKey v)) = none → getProp? h "_" = some g →
        enumMatch v h = .ok (g v))) ∧
    enumMatch (.vNum 2) [("1", fun _ => Value.vStr "one"), ("2", fun _ => Value.vStr "two"),
      ("_", fun _ => Value.vStr "other")] = .ok (.vStr "two") ∧
    enumMatch (.vNum 1) [("2", fun _ => Value.vStr "two"),
      ("_", fun _ => Value.vStr "other")] = .ok (.vStr "other") := by
  refine ⟨?_, rfl, rfl⟩
  intro R v h _
  refine ⟨⟨rfl, rfl, fun _ => rfl, fun _ => rfl⟩, ?_, ?_⟩
  · intro f hf
    simp [enumMatch, hf]
  · intro g hk hg
    simp [enumMatch, hk, hg]

/-- Claim C7 witness: a scalar with a matching key invokes that key's
handler with the original value. -/
theorem enum_match_dispatch_witness :
    enumMatch (.vStr "a") [("a", fun _ => Value.vStr "hit"), ("_", fun _ => Value.vStr "miss")]
      = .ok (.vStr "hit") :=
  ((enum_match_dispatch).1 Value (.vStr "a")
      [("a", fun _ => Value.vStr "hit"), ("_", fun _ => Value.vStr "miss")] rfl).2.1
    (fun _ => Value.vStr "hit") rfl

/-- Claim C6: the dispatcher of `VariantMatcher.into` skips the handler
(returning null) exactly when the payload is nullish or deep-equal to
the empty array, and otherwise returns the handler's result on the
payload; `catch` additionally requires tag membership. -/
theorem union_into_catch_gating {R : Type} (k : String) (v : Value) (tags : List String)
    (fn : Value → R) :
    unionInto [(k, v)] fn =
      (if isNil v || isEqualEmptyArr v then none else some (fn v)) ∧
    unionCatch [(k, v)] tags fn =
      (if !tags.contains k || isNil v || isEqualEmptyArr v then none else some (fn v)) := by
  have hpay : unionPayload [(k, v)] = v := by
    simp [unionPayload, unionTagStr, objGet, objFields, getProp?]
  constructor
  · cases hn : isNil v <;> cases he : isEqualEmptyArr v <;>
      simp [unionInto, hpay, hn, he]
  · by_cases ht : k ∈ tags <;> cases hn : isNil v <;> cases he : isEqualEmptyArr v <;>
      simp [unionCatch, hpay, ht, hn, he]

/- Association-list lemmas for the picked sub-record of
`matchableObj.catch`. -/

theorem getProp?_map_update_self (o : Obj) (k : String) (v : Value) :
    getProp? (o.map (fun p => if p.1 == k then (k, v) else p)) k =
      (if o.any (fun p => p.1 == k) then some v else none) := by
  induction o with
  | nil => rfl
  | cons p rest ih =>
    obtain ⟨pk, pv⟩ := p
    by_cases hp : pk = k
    · subst hp
      have hhead : (if (pk, pv).1 == pk then (pk, v) else (pk, pv)) = (pk, v) := by simp
      rw [List.map_cons, hhead]
      simp [getProp?, ih]
    · have hhead : (if (pk, pv).1 == k then (k, v) else (pk, pv)) = (pk, pv) := by simp [hp]
      rw [List.map_cons, hhead]
      have hb : (pk == k) = false := by simp [hp]
      simp only [getProp?, List.any_cons, hb, Bool.false_or, Bool.false_eq_true, if_false]
      exact ih

theorem getProp?_map_update_ne (o : Obj) (k k' : String) (v : Value) (hne : ¬ k' = k) :
    getProp? (o.map (fun p => if p.1 == k then (k, v) else p)) k' = getProp? o k' := by
  have hne' : ¬ k = k' := fun h => hne h.symm
  induction o with
  | nil => rfl
  | cons p rest ih =>
    obtain ⟨pk, pv⟩ := p
    by_cases hp : pk = k
    · subst hp
      have hhead : (if (pk, pv).1 == pk then (pk, v) else (pk, pv)) = (pk, v) := by simp
      rw [List.map_cons, hhead]
      have hb : (pk == k') = false := by simp [hne']
      simp only [getProp?, hb, Bool.false_eq_true, if_false]
      exact ih
    · have hhead : (if (pk, pv).1 == k then (k, v) else (pk, pv)) = (pk, pv) := by simp [hp]
      rw [List.map_cons, hhead]
      simp only [getProp?]
      rw [ih]

theorem getProp?_append_no_key (o l : Obj) (k : String)
    (h : o.any (fun p => p.1 == k) = false) :
    getProp? (o ++ l) k = getProp? l k := by
  induction o with
  | nil => rfl
  | cons p rest ih =>
    simp only [List.any_cons, Bool.or_eq_false_iff] at h
    simp [getProp?, h.1, ih h.2]

theorem getProp?_append_ne (o : Obj) (k k' : String) (v : Value) (hne : ¬ k' = k) :
    getProp? (o ++ [(k, v)]) k' = getProp? o k' := by
  have hne' : ¬ k = k' := fun h => hne h.symm
  induction o with
  | nil => simp [getProp?, hne']
  | cons p rest ih =>
    by_cases hp : p.1 = k'
    · simp [getProp?, hp]
    · simp [getProp?, hp, ih]

theorem getProp?_setProp_self (o : Obj) (k : String) (v : Value) :
    getProp? (setProp o k v) k = some v := by
  by_cases h : (o.any (fun p => p.1 == k)) = true
  · rw [setProp, if_pos h, getProp?_map_update_self, if_pos h]
  · have h' : (o.any (fun p => p.1 == k)) = false := by
      cases hb : o.any (fun p => p.1 == k)
      · rfl
      · exact absurd hb h
    rw [setProp, if_neg h, getProp?_append_no_key o _ k h']
    simp [getProp?]

theorem getProp?_setProp_ne (o : Obj) (k k' : String) (v : Value) (hne : ¬ k' = k) :
    getProp? (setProp o k v) k' = getProp? o k' := by
  by_cases h : (o.any (fun p => p.1 == k)) = true
  · rw [setProp, if_pos h, getProp?_map_update_ne _ _ _ _ hne]
  · rw [setProp, if_neg h, getProp?_append_ne _ _ _ _ hne]

theorem getProp?_pickAux (value : Value) (keys : List String) (acc : Obj) (k : String) :
    getProp? (keys.foldl (fun a kk => setProp a kk (objGet value kk)) acc) k =
      if k ∈ keys then some (objGet value k) else getProp? acc k := by
  induction keys generalizing acc with
  | nil => simp
  | cons k0 rest ih =>
    simp only [List.foldl_cons]
    rw [ih]
    by_cases hk : k ∈ rest
    · simp [hk]
    · by_cases he : k = k0
      · subst he
        simp [hk, getProp?_setProp_self]
      · simp [hk, he, getProp?_setProp_ne _ _ _ _ he]

/-- Claim C8: the dispatcher of `ObjectMatcher.catch(...keys)` returns
null when any named key's value is nullish; otherwise it invokes the
handler with a sub-record holding exactly the named keys with their
values; with zero keys it always invokes the handler with an empty
record. -/
theorem obj_catch_spec {R : Type} (value : Value) (keys : List String) (fn : Value → R) :
    ((∃ k, k ∈ keys ∧ isNil (objGet value k) = true) → objCatch value keys fn = none) ∧
    ((∀ k, k ∈ keys → isNil (objGet value k) = false) →
      objCatch value keys fn = some (fn (.vObj (pickProps value keys)))) ∧
    (∀ k, k ∈ keys → getProp? (pickProps value keys) k = some (objGet value k)) ∧
    (∀ k, ¬ k ∈ keys → getProp? (pickProps value keys) k = none) ∧
    objCatch value [] fn = some (fn (.vObj [])) := by
  refine ⟨?_, ?_, ?_, ?_, rfl⟩
  · rintro ⟨k, hk, hnil⟩
    have hany : keys.any (fun kk => isNil (objGet value kk)) = true :=
      List.any_eq_true.mpr ⟨k, hk, hnil⟩
    simp [objCatch, hany]
  · intro hall
    cases hany : keys.any (fun kk => isNil (objGet value kk)) with
    | true =>
      exfalso
      rcases List.any_eq_true.mp hany with ⟨k, hk, hnil⟩
      rw [hall k hk] at hnil
      exact Bool.false_ne_true hnil
    | false => simp [objCatch, hany]
  · intro k hk
    rw [pickProps, getProp?_pickAux]
    simp [hk]
  · intro k hk
    rw [pickProps, getProp?_pickAux]
    simp [hk, getProp?]

/-- Claim C8 witness: picking two present keys invokes the handler with
the two-field sub-record. -/
theorem obj_catch_spec_witness :
    objCatch (.vObj [("a", .vNum 1), ("b", .vNum 2), ("c", .vNum 3)]) ["a", "b"]
      (fun p => p) = some (.vObj [("a", .vNum 1), ("b", .vNum 2)]) :=
  (obj_catch_spec (.vObj [("a", .vNum 1), ("b", .vNum 2), ("c", .vNum 3)]) ["a", "b"]
      (fun p => p)).2.1 (by
    intro k hk
    fin_cases hk <;> rfl)

/-- Claim C10: in `ObjectMatcher.catch` only null and undefined count as
absent: when every named key holds a falsy-but-present value (0, false,
or the empty string) the dispatcher still invokes the handler with those
values in the sub-record. -/
theorem obj_catch_falsy_present {R : Type} (value : Value) (keys : List String) (fn : Value → R)
    (hf : ∀ k, k ∈ keys →
      objGet value k = .vNum 0 ∨ objGet value k = .vBool false ∨ objGet value k = .vStr "") :
    objCatch value keys fn = some (fn (.vObj (pickProps value keys))) := by
  cases hany : keys.any (fun k => isNil (objGet value k)) with
  | false => simp [objCatch, hany]
  | true =>
    exfalso
    rcases List.any_eq_true.mp hany with ⟨k, hk, hnil⟩
    rcases hf k hk with h | h | h <;> simp [h, isNil] at hnil

/-- Claim C10 witness: a record whose named keys hold 0, false and the
empty string still reaches the handler, which receives those values. -/
theorem obj_catch_falsy_present_witness :
    objCatch (.vObj [("a", .vNum 0), ("b", .vBool false), ("c", .vStr "")]) ["a", "b", "c"]
      (fun p => p)
      = some (.vObj [("a", .vNum 0), ("b", .vBool false), ("c", .vStr "")]) := by
  have hf : ∀ k, k ∈ (["a", "b", "c"] : List String) →
      objGet (.vObj [("a", .vNum 0), ("b", .vBool false), ("c", .vStr "")]) k = .vNum 0 ∨
      objGet (.vObj [("a", .vNum 0), ("b", .vBool false), ("c", .vStr "")]) k = .vBool false ∨
      objGet (.vObj [("a", .vNum 0), ("b", .vBool false), ("c", .vStr "")]) k = .vStr "" := by
    intro k hk
    fin_cases hk
    · exact Or.inl rfl
    · exact Or.inr (Or.inl rfl)
    · exact Or.inr (Or.inr rfl)
  exact obj_catch_falsy_present _ _ _ hf

/- Frame lemmas for the discriminated-matcher operations. -/

theorem discStep_state {R : Type} (key : String) (st : Value) (op : DiscOp R) :
    (discStep key st op).2 = st := by
  cases op <;> rfl

theorem discRun_state {R : Type} (key : String) (ops : List (DiscOp R)) (st : Value) :
    (discRun key ops st).2 = st := by
  induction ops generalizing st with
  | nil => rfl
  | cons op rest ih =>
    simp only [discRun]
    rw [ih, discStep_state]

theorem discRun_results {R : Type} (key : String) (ops : List (DiscOp R)) (st : Value) :
    (discRun key ops st).1 = ops.map (fun op => (discStep key st op).1) := by
  induction ops with
  | nil => rfl
  | cons op rest ih =>
    simp only [discRun, List.map_cons]
    rw [discStep_state, ih]

/-- Claim C9: no discriminated-matcher operation mutates the wrapped
record — the bare payload is built from a shallow copy before the
discriminant is deleted, so after any sequence of `match`/`into`/`catch`
calls the record state is unchanged (discriminant and all other fields
intact), and every call in the sequence behaves as if run against the
original record. -/
theorem disc_ops_preserve_record {R : Type} (value : Value) (key : String)
    (ops : List (DiscOp R)) :
    (discRun key ops value).2 = value ∧
    (∀ k, objGet ((discRun key ops value).2) k = objGet value k) ∧
    (discRun key ops value).1 = ops.map (fun op => (discStep key value op).1) := by
  refine ⟨discRun_state key ops value, ?_, discRun_results key ops value⟩
  intro k
  rw [discRun_state]

end Matchable
